import Mathlib

/-!
Shallow embedding of the whale-radar scoring core (src/rust/src/lib.rs and
src/rust/src/scoring.rs). Floating-point values are modelled as rationals
(reals where a square root occurs); u64 counters as naturals; the Rust
`as u8` saturating cast as truncation toward zero clamped to [0, 255];
the HashMap of wallet stats as an association list with distinct keys.
-/

/-- WalletStats from lib.rs: aggregate profile of one wallet. -/
structure WalletStats where
  address : String
  total_volume_sol : ℚ
  interaction_count : ℕ
  average_entry_size : ℚ
  early_entry_count : ℕ
  winrate_proxy : ℚ
deriving DecidableEq, Repr

/-- TokenInteraction from lib.rs: one purchase event. -/
structure TokenInteraction where
  wallet_address : String
  token_mint : String
  block_time : ℕ
  sol_amount : ℚ
  is_early_entry : Bool
deriving DecidableEq, Repr

/-- Rust saturating cast `f64 as u8`: truncate toward zero, clamp to [0, 255].
For the non-negative values produced by the scorers this is the floor. -/
def rust_as_u8 (x : ℚ) : ℕ :=
  min (Int.toNat ⌊x⌋) 255

/-- calculate_whale_score from lib.rs lines 36-69. -/
def calculate_whale_score (stats : WalletStats) : ℕ :=
  if stats.interaction_count = 0 then 0
  else
    let earlyFrac : ℚ :=
      if stats.interaction_count > 0 then
        (stats.early_entry_count : ℚ) / (stats.interaction_count : ℚ)
      else 0
    let ratio_score := min (earlyFrac * 20) 20
    let count_score := min ((stats.early_entry_count : ℚ) * 2) 20
    let early_entry_score := ratio_score + count_score
    let avg_size_score := min (stats.average_entry_size / 50 * 20) 20
    let volume_score := min (stats.total_volume_sol / 500 * 10) 10
    let buy_size_score := avg_size_score + volume_score
    let repetition_score := min ((stats.interaction_count : ℚ) / 50 * 20) 20
    let profit_score := stats.winrate_proxy * 10
    let total_score := early_entry_score + buy_size_score + repetition_score + profit_score
    rust_as_u8 (min total_score 100)

/-- calculate_insider_confidence from lib.rs lines 77-115. -/
def calculate_insider_confidence (early_entry_count total_interactions : ℕ)
    (avg_buy_size min_threshold : ℚ) (min_repetitions : ℕ) : ℕ :=
  if total_interactions = 0 then 0
  else
    let c1 : ℚ :=
      if early_entry_count ≥ min_repetitions then
        (early_entry_count : ℚ) / (total_interactions : ℚ) * 40
      else 0
    let c2 : ℚ :=
      if avg_buy_size ≥ min_threshold then 30
      else avg_buy_size / min_threshold * 30
    let c3 : ℚ :=
      if avg_buy_size ≥ min_threshold * 2 then 20
      else min (avg_buy_size / (min_threshold * 2) * 20) 20
    rust_as_u8 (min (c1 + c2 + c3 + 10) 100)

/-- process_interactions from lib.rs lines 118-151. -/
def process_interactions : List TokenInteraction → WalletStats
  | [] =>
    { address := ""
      total_volume_sol := 0
      interaction_count := 0
      average_entry_size := 0
      early_entry_count := 0
      winrate_proxy := 0 }
  | first :: rest =>
    let interactions := first :: rest
    let total_volume : ℚ := (interactions.map (fun i => i.sol_amount)).sum
    let interaction_count : ℕ := interactions.length
    let average_entry_size : ℚ := total_volume / (interaction_count : ℚ)
    let early_entry_count : ℕ := (interactions.filter (fun i => i.is_early_entry)).length
    let winrate_proxy : ℚ :=
      if interaction_count > 0 then
        min ((early_entry_count : ℚ) / (interaction_count : ℚ) * (3 / 2)) 1
      else 3 / 10
    { address := first.wallet_address
      total_volume_sol := total_volume
      interaction_count := interaction_count
      average_entry_size := average_entry_size
      early_entry_count := early_entry_count
      winrate_proxy := winrate_proxy }

/-- is_early_entry from lib.rs lines 164-170. -/
def is_early_entry (block_time token_creation_time window_seconds : ℕ) : Bool :=
  if block_time < token_creation_time then false
  else decide (block_time - token_creation_time ≤ window_seconds)

/-- DynamicScorer from scoring.rs: caller-supplied weights. -/
structure DynamicScorer where
  early_entry_weight : ℚ
  buy_size_weight : ℚ
  repetition_weight : ℚ
  profit_weight : ℚ
deriving DecidableEq, Repr

/-- The Default impl for DynamicScorer (scoring.rs lines 15-24). -/
def DynamicScorer.default : DynamicScorer :=
  { early_entry_weight := 40
    buy_size_weight := 30
    repetition_weight := 20
    profit_weight := 10 }

/-- DynamicScorer::calculate_score from scoring.rs lines 28-44. -/
def DynamicScorer.calculate_score (s : DynamicScorer) (stats : WalletStats) : ℕ :=
  if stats.interaction_count = 0 then 0
  else
    let earlyR : ℚ := (stats.early_entry_count : ℚ) / (stats.interaction_count : ℚ)
    let early_score := min (earlyR * s.early_entry_weight) s.early_entry_weight
    let size_score := min (stats.average_entry_size / 50 * s.buy_size_weight) s.buy_size_weight
    let rep_score := min ((stats.interaction_count : ℚ) / 50 * s.repetition_weight) s.repetition_weight
    let profit_score := stats.winrate_proxy * s.profit_weight
    rust_as_u8 (min (early_score + size_score + rep_score + profit_score) 100)

/-- PatternDetector parameters from scoring.rs lines 48-52. -/
structure PatternDetector where
  min_early_entries : ℕ
  min_avg_buy_size : ℚ
  consistency_threshold : ℚ
deriving DecidableEq, Repr

/-- Mean of the `sol_amount` values, as computed in consistency_score
(scoring.rs lines 77-78), over the reals. -/
noncomputable def size_mean (interactions : List TokenInteraction) : ℝ :=
  ((interactions.map (fun i => ((i.sol_amount : ℚ) : ℝ))).sum) / (interactions.length : ℝ)

/-- Population variance of the `sol_amount` values, as computed in
consistency_score (scoring.rs lines 80-82). -/
noncomputable def size_variance (interactions : List TokenInteraction) : ℝ :=
  ((interactions.map (fun i => (((i.sol_amount : ℚ) : ℝ) - size_mean interactions) ^ 2)).sum) /
    (interactions.length : ℝ)

/-- PatternDetector::consistency_score from scoring.rs lines 72-89.
Note the source guards the zero-mean case itself: `if mean > 0.0` sets the
coefficient of variation to 0 when the mean is not positive. -/
noncomputable def PatternDetector.consistency_score (pd : PatternDetector)
    (interactions : List TokenInteraction) : ℝ :=
  if interactions.length < 3 then 0
  else
    let mean := size_mean interactions
    let std_dev := Real.sqrt (size_variance interactions)
    let coefficient_of_variation := if mean > 0 then std_dev / mean else 0
    (1 - min coefficient_of_variation 1) * 100

/-- WalletClusterer parameters from scoring.rs lines 93-95. -/
structure WalletClusterer where
  similarity_threshold : ℚ
deriving DecidableEq, Repr

/-- WalletClusterer::similarity from scoring.rs lines 129-139. -/
def WalletClusterer.similarity (c : WalletClusterer) (stats1 stats2 : WalletStats) : ℚ :=
  let volume_sim := 1 - |stats1.total_volume_sol - stats2.total_volume_sol| /
    (stats1.total_volume_sol + stats2.total_volume_sol + 1)
  let size_sim := 1 - |stats1.average_entry_size - stats2.average_entry_size| /
    (stats1.average_entry_size + stats2.average_entry_size + 1)
  let ratio_sim := 1 - |stats1.winrate_proxy - stats2.winrate_proxy|
  (volume_sim + size_sim + ratio_sim) / 3

/-- The inner loop of cluster_wallets (scoring.rs lines 110-119): scan the
whole map, adding any unassigned wallet whose similarity to the seed's stats
meets the threshold to the cluster and to the assigned set. -/
def clusterInner (c : WalletClusterer) (stats1 : WalletStats) (addr1 : String) :
    List (String × WalletStats) → List String → List String → List String × List String
  | [], cluster, assigned => (cluster, assigned)
  | (addr2, stats2) :: rest, cluster, assigned =>
    if addr2 ∈ assigned ∨ addr1 = addr2 then
      clusterInner c stats1 addr1 rest cluster assigned
    else if c.similarity stats1 stats2 ≥ c.similarity_threshold then
      clusterInner c stats1 addr1 rest (cluster ++ [addr2]) (addr2 :: assigned)
    else
      clusterInner c stats1 addr1 rest cluster assigned

/-- The outer loop of cluster_wallets (scoring.rs lines 102-124): for each
not-yet-assigned wallet open a new cluster seeded with it, run the inner
scan, and push the cluster if non-empty. -/
def clusterOuter (c : WalletClusterer) (stats_map : List (String × WalletStats)) :
    List (String × WalletStats) → List String → List (List String) × List String
  | [], assigned => ([], assigned)
  | (addr1, stats1) :: rest, assigned =>
    if addr1 ∈ assigned then
      clusterOuter c stats_map rest assigned
    else
      let p := clusterInner c stats1 addr1 stats_map [addr1] (addr1 :: assigned)
      let q := clusterOuter c stats_map rest p.2
      (if p.1.isEmpty then q.1 else p.1 :: q.1, q.2)

/-- WalletClusterer::cluster_wallets from scoring.rs lines 98-127, over an
association list standing for the HashMap (one entry per wallet address). -/
def WalletClusterer.cluster_wallets (c : WalletClusterer)
    (stats_map : List (String × WalletStats)) : List (List String) :=
  (clusterOuter c stats_map stats_map []).1

/-! Concrete sample inputs, used by the closed witness and counterexample
theorems below. -/

/-- The first interaction of the aggregation test vector (lib.rs tests). -/
def sampleTI1 : TokenInteraction :=
  { wallet_address := "addr1", token_mint := "token1", block_time := 1000,
    sol_amount := 10, is_early_entry := true }

/-- The second interaction of the aggregation test vector (lib.rs tests). -/
def sampleTI2 : TokenInteraction :=
  { wallet_address := "addr1", token_mint := "token2", block_time := 2000,
    sol_amount := 20, is_early_entry := false }

/-- An interaction with a given purchase size. -/
def tiAmount (a : ℚ) : TokenInteraction :=
  { wallet_address := "w", token_mint := "t", block_time := 0,
    sol_amount := a, is_early_entry := false }

/-- Three interactions of 10 SOL each. -/
def sampleTenList : List TokenInteraction := [tiAmount 10, tiAmount 10, tiAmount 10]

/-- Three interactions of 0 SOL each (mean purchase size 0). -/
def sampleZeroList : List TokenInteraction := [tiAmount 0, tiAmount 0, tiAmount 0]

/-- Four interactions of 0 SOL each (mean purchase size 0). -/
def sampleZeroList4 : List TokenInteraction :=
  [tiAmount 0, tiAmount 0, tiAmount 0, tiAmount 0]

/-- A pattern detector configuration. -/
def samplePD : PatternDetector :=
  { min_early_entries := 2, min_avg_buy_size := 5, consistency_threshold := 4 / 5 }

/-- A clusterer with threshold 1/2. -/
def sampleClusterer : WalletClusterer := { similarity_threshold := 1 / 2 }

/-- A wallet with one interaction, which was an early entry. -/
def sampleStatsEarly : WalletStats :=
  { address := "", total_volume_sol := 0, interaction_count := 1,
    average_entry_size := 0, early_entry_count := 1, winrate_proxy := 0 }

/-- A wallet with no early entries, zero volume and zero average size. -/
def sampleStatsZeroEarly : WalletStats :=
  { address := "w", total_volume_sol := 0, interaction_count := 7,
    average_entry_size := 0, early_entry_count := 0, winrate_proxy := 1 / 2 }

/-- The whale-score test vector from lib.rs tests. -/
def sampleStatsPos : WalletStats :=
  { address := "test", total_volume_sol := 100, interaction_count := 10,
    average_entry_size := 10, early_entry_count := 5, winrate_proxy := 4 / 5 }

/-- A wallet profile with no interactions recorded. -/
def sampleStatsZeroCount : WalletStats :=
  { address := "", total_volume_sol := 5, interaction_count := 0,
    average_entry_size := 5, early_entry_count := 3, winrate_proxy := 1 / 2 }

/-- Same as sampleStatsPos except for total_volume_sol. -/
def sampleStatsPosVol : WalletStats :=
  { address := "test", total_volume_sol := 123456, interaction_count := 10,
    average_entry_size := 10, early_entry_count := 5, winrate_proxy := 4 / 5 }

/-- A two-wallet map with identical stats on both wallets. -/
def sampleMap : List (String × WalletStats) :=
  [("a", sampleStatsPos), ("b", sampleStatsPos)]

/-! Helper lemmas. -/

/-- The saturating cast of a rational at most 100 is at most 100. -/
theorem rust_as_u8_le_100 (x : ℚ) (h : x ≤ 100) : rust_as_u8 x ≤ 100 := by
  have h1 : ⌊x⌋ < 101 := Int.floor_lt.mpr (lt_of_le_of_lt h (by norm_num))
  have h2 : Int.toNat ⌊x⌋ ≤ 100 := Int.toNat_le.mpr (by omega)
  exact le_trans (min_le_left _ _) h2

/-- The whale score is at most 100 on every input. -/
theorem calculate_whale_score_le_100 (stats : WalletStats) :
    calculate_whale_score stats ≤ 100 := by
  unfold calculate_whale_score
  split
  · omega
  · exact rust_as_u8_le_100 _ (min_le_right _ _)

/-- The insider confidence is at most 100 on every input. -/
theorem calculate_insider_confidence_le_100 (e t : ℕ) (a m : ℚ) (r : ℕ) :
    calculate_insider_confidence e t a m r ≤ 100 := by
  unfold calculate_insider_confidence
  split
  · omega
  · exact rust_as_u8_le_100 _ (min_le_right _ _)

/-- C2: for every WalletStats with non-negative numeric fields, and every
non-negative argument tuple with positive min_threshold, both
calculate_whale_score and calculate_insider_confidence return an integer in
the range [0, 100]. -/
theorem C2_scores_bounded (stats : WalletStats)
    (hv : 0 ≤ stats.total_volume_sol) (hs : 0 ≤ stats.average_entry_size)
    (hw : 0 ≤ stats.winrate_proxy)
    (e t : ℕ) (a m : ℚ) (r : ℕ) (ha : 0 ≤ a) (hm : 0 < m) :
    (0 ≤ calculate_whale_score stats ∧ calculate_whale_score stats ≤ 100) ∧
    (0 ≤ calculate_insider_confidence e t a m r ∧
      calculate_insider_confidence e t a m r ≤ 100) :=
  ⟨⟨Nat.zero_le _, calculate_whale_score_le_100 stats⟩,
   ⟨Nat.zero_le _, calculate_insider_confidence_le_100 e t a m r⟩⟩

/-- Witness for C2 at a concrete wallet profile and argument tuple. -/
theorem C2_scores_bounded_witness :
    ((0 : ℚ) ≤ 100 ∧ (0 : ℚ) ≤ 10 ∧ (0 : ℚ) < 5) ∧
    ((0 ≤ calculate_whale_score sampleStatsPos ∧
        calculate_whale_score sampleStatsPos ≤ 100) ∧
     (0 ≤ calculate_insider_confidence 3 5 10 5 2 ∧
        calculate_insider_confidence 3 5 10 5 2 ≤ 100)) :=
  ⟨⟨by norm_num, by norm_num, by norm_num⟩,
   C2_scores_bounded sampleStatsPos (by norm_num [sampleStatsPos])
     (by norm_num [sampleStatsPos]) (by norm_num [sampleStatsPos])
     3 5 10 5 2 (by norm_num) (by norm_num)⟩

/-- C3: a wallet with interaction_count 0 gets whale score 0, and a call with
total_interactions 0 gets insider confidence 0, whatever the other
arguments. -/
theorem C3_zero_count_zero_score (stats : WalletStats)
    (h : stats.interaction_count = 0) (e : ℕ) (a m : ℚ) (r : ℕ) :
    calculate_whale_score stats = 0 ∧ calculate_insider_confidence e 0 a m r = 0 := by
  constructor
  · simp [calculate_whale_score, h]
  · simp [calculate_insider_confidence]

/-- Witness for C3 at a concrete wallet profile and argument tuple. -/
theorem C3_zero_count_zero_score_witness :
    sampleStatsZeroCount.interaction_count = 0 ∧
    (calculate_whale_score sampleStatsZeroCount = 0 ∧
      calculate_insider_confidence 3 0 10 5 2 = 0) :=
  ⟨rfl, C3_zero_count_zero_score sampleStatsZeroCount rfl 3 10 5 2⟩

/-- C10: DynamicScorer::calculate_score is determined by interaction_count,
early_entry_count, average_entry_size and winrate_proxy alone; in particular
it never depends on total_volume_sol. -/
theorem C10_score_ignores_volume (w : DynamicScorer) (s1 s2 : WalletStats)
    (h1 : s1.interaction_count = s2.interaction_count)
    (h2 : s1.early_entry_count = s2.early_entry_count)
    (h3 : s1.average_entry_size = s2.average_entry_size)
    (h4 : s1.winrate_proxy = s2.winrate_proxy) :
    w.calculate_score s1 = w.calculate_score s2 := by
  simp only [DynamicScorer.calculate_score, h1, h2, h3, h4]

/-- Witness for C10: two profiles differing only in total_volume_sol get the
same dynamic score. -/
theorem C10_score_ignores_volume_witness :
    (sampleStatsPos.interaction_count = sampleStatsPosVol.interaction_count ∧
      sampleStatsPos.total_volume_sol ≠ sampleStatsPosVol.total_volume_sol) ∧
    DynamicScorer.default.calculate_score sampleStatsPos =
      DynamicScorer.default.calculate_score sampleStatsPosVol :=
  ⟨⟨rfl, by norm_num [sampleStatsPos, sampleStatsPosVol]⟩,
   C10_score_ignores_volume DynamicScorer.default sampleStatsPos sampleStatsPosVol
     rfl rfl rfl rfl⟩

/-- C7: is_early_entry returns false when the event precedes creation, and
otherwise accepts exactly the events within the window, boundary included;
checked on the three documented sample points. -/
theorem C7_early_entry_window (e c w : ℕ) :
    (e < c → is_early_entry e c w = false) ∧
    (c ≤ e → (is_early_entry e c w = true ↔ e - c ≤ w)) ∧
    is_early_entry 1050 1000 60 = true ∧
    is_early_entry 1100 1000 60 = false ∧
    is_early_entry 900 1000 60 = false := by
  refine ⟨fun h => by simp [is_early_entry, h], fun h => ?_, by decide, by decide, by decide⟩
  simp [is_early_entry, Nat.not_lt.mpr h]

/-- Witness for C7 at the documented sample points. -/
theorem C7_early_entry_window_witness :
    (900 < 1000 ∧ is_early_entry 900 1000 60 = false) ∧
    (1000 ≤ 1050 ∧ (is_early_entry 1050 1000 60 = true ↔ 1050 - 1000 ≤ 60)) :=
  ⟨⟨by decide, (C7_early_entry_window 900 1000 60).1 (by decide)⟩,
   ⟨by decide, (C7_early_entry_window 1050 1000 60).2.1 (by decide)⟩⟩

/-- C1 counterexample: on a wallet with one interaction that was an early
entry, the default-weight dynamic scorer returns 40 while
calculate_whale_score returns 22, so the two functions are not equal. -/
theorem C1_counterexample_default_scorer_differs :
    DynamicScorer.default.calculate_score sampleStatsEarly ≠
      calculate_whale_score sampleStatsEarly := by
  have hA : DynamicScorer.default.calculate_score sampleStatsEarly = 40 := by
    norm_num [DynamicScorer.calculate_score, DynamicScorer.default, sampleStatsEarly, rust_as_u8]
    decide
  have hB : calculate_whale_score sampleStatsEarly = 22 := by
    norm_num [calculate_whale_score, sampleStatsEarly, rust_as_u8]
    decide
  rw [hA, hB]
  decide

/-- C1 (amended): the default-weight dynamic scorer does not reproduce
calculate_whale_score in general; its early-entry component is a single
min(ratio*40, 40) instead of the whale score's min(ratio*20, 20) +
min(count*2, 20), and its buy-size component min(avg/50*30, 30) has no
total-volume term. The two agree on every WalletStats whose
early_entry_count, average_entry_size and total_volume_sol are all zero. -/
theorem C1_default_scorer_agrees_on_zero_early_and_size (stats : WalletStats)
    (h1 : stats.early_entry_count = 0)
    (h2 : stats.average_entry_size = 0) (h3 : stats.total_volume_sol = 0) :
    DynamicScorer.default.calculate_score stats = calculate_whale_score stats := by
  by_cases h : stats.interaction_count = 0
  · simp [DynamicScorer.calculate_score, calculate_whale_score, h]
  · simp only [DynamicScorer.calculate_score, calculate_whale_score, DynamicScorer.default,
      h1, h2, h3, if_neg h, Nat.pos_of_ne_zero h, if_pos]
    norm_num

/-- Witness for the amended C1 at a concrete wallet profile. -/
theorem C1_default_scorer_agrees_witness :
    (sampleStatsZeroEarly.early_entry_count = 0 ∧
      sampleStatsZeroEarly.average_entry_size = 0 ∧
      sampleStatsZeroEarly.total_volume_sol = 0) ∧
    DynamicScorer.default.calculate_score sampleStatsZeroEarly =
      calculate_whale_score sampleStatsZeroEarly :=
  ⟨⟨rfl, rfl, rfl⟩,
   C1_default_scorer_agrees_on_zero_early_and_size sampleStatsZeroEarly rfl rfl rfl⟩

/-- C4: on a non-empty interaction list, process_interactions returns the
first record's wallet address, the sum of the amounts, the list length, their
quotient as average entry size, and the early-entry count; the two-record
test vector gives count 2, total 30, average 15, early count 1. -/
theorem C4_process_interactions_aggregate (first : TokenInteraction)
    (rest : List TokenInteraction) :
    (process_interactions (first :: rest)).address = first.wallet_address ∧
    (process_interactions (first :: rest)).total_volume_sol =
      ((first :: rest).map (fun i => i.sol_amount)).sum ∧
    (process_interactions (first :: rest)).interaction_count = (first :: rest).length ∧
    (process_interactions (first :: rest)).average_entry_size =
      (process_interactions (first :: rest)).total_volume_sol /
        ((process_interactions (first :: rest)).interaction_count : ℚ) ∧
    (process_interactions (first :: rest)).early_entry_count =
      ((first :: rest).filter (fun i => i.is_early_entry)).length ∧
    (process_interactions [sampleTI1, sampleTI2]).interaction_count = 2 ∧
    (process_interactions [sampleTI1, sampleTI2]).total_volume_sol = 30 ∧
    (process_interactions [sampleTI1, sampleTI2]).average_entry_size = 15 ∧
    (process_interactions [sampleTI1, sampleTI2]).early_entry_count = 1 := by
  refine ⟨rfl, rfl, rfl, rfl, rfl, by decide, ?_, ?_, by decide⟩
  · norm_num [process_interactions, sampleTI1, sampleTI2]
  · norm_num [process_interactions, sampleTI1, sampleTI2]

/-- C5: process_interactions returns the all-zero WalletStats with the empty
address on the empty list, and on every non-empty list the winrate proxy is
min(1, early_entry_count / interaction_count * 1.5); in particular the 0.3
fallback branch is unreachable. -/
theorem C5_empty_and_winrate :
    process_interactions [] =
      { address := "", total_volume_sol := 0, interaction_count := 0,
        average_entry_size := 0, early_entry_count := 0, winrate_proxy := 0 } ∧
    ∀ (first : TokenInteraction) (rest : List TokenInteraction),
      (process_interactions (first :: rest)).winrate_proxy =
        min 1 ((((first :: rest).filter (fun i => i.is_early_entry)).length : ℚ) /
          (((first :: rest).length : ℚ)) * (3 / 2)) := by
  refine ⟨rfl, fun first rest => ?_⟩
  simp [process_interactions, min_comm]

/-- If every purchase has size a, the mean purchase size is a. -/
theorem size_mean_const (l : List TokenInteraction) (a : ℚ)
    (h : ∀ i ∈ l, i.sol_amount = a) (hl : l ≠ []) : size_mean l = (a : ℝ) := by
  unfold size_mean
  have hs : (l.map (fun i => ((i.sol_amount : ℚ) : ℝ))).sum = l.length • (a : ℝ) := by
    rw [List.sum_eq_card_nsmul _ (a : ℝ) ?_]
    · simp
    · intro x hx
      obtain ⟨i, hi, rfl⟩ := List.mem_map.mp hx
      rw [h i hi]
  have hlen : (l.length : ℝ) ≠ 0 :=
    Nat.cast_ne_zero.mpr (List.length_pos.mpr hl).ne'
  rw [hs, nsmul_eq_mul]
  field_simp

/-- If every purchase has size a, the population variance is 0. -/
theorem size_variance_const (l : List TokenInteraction) (a : ℚ)
    (h : ∀ i ∈ l, i.sol_amount = a) (hl : l ≠ []) : size_variance l = 0 := by
  unfold size_variance
  have hm := size_mean_const l a h hl
  have hs : (l.map (fun i => (((i.sol_amount : ℚ) : ℝ) - size_mean l) ^ 2)).sum = 0 := by
    apply List.sum_eq_zero
    intro x hx
    obtain ⟨i, hi, rfl⟩ := List.mem_map.mp hx
    rw [h i hi, hm]
    ring
  rw [hs, zero_div]

/-- C6 counterexample: on three interactions of size 0 (mean purchase size 0)
consistency_score is well defined and returns 100: the implementation itself
treats the zero-mean case as coefficient of variation 0, so no division by
zero occurs and no caller-side guard is needed. -/
theorem C6_counterexample_zero_mean_guarded :
    samplePD.consistency_score sampleZeroList = 100 := by
  have hmean : size_mean sampleZeroList = 0 := by
    norm_num [size_mean, sampleZeroList, tiAmount]
  unfold PatternDetector.consistency_score
  rw [if_neg (by decide)]
  simp only [hmean, gt_iff_lt, lt_irrefl, if_false]
  norm_num

/-- C6 (amended): the original consistency_score does guard the degenerate
zero-mean case: when the mean sol_amount is 0 it sets the coefficient of
variation to 0 by convention, so every list of at least 3 interactions with
mean purchase size 0 yields score 100 with no division by zero. -/
theorem C6_zero_mean_gives_100 (pd : PatternDetector) (l : List TokenInteraction)
    (h3 : 3 ≤ l.length) (hm : size_mean l = 0) :
    pd.consistency_score l = 100 := by
  unfold PatternDetector.consistency_score
  rw [if_neg (by omega)]
  simp only [hm, gt_iff_lt, lt_irrefl, if_false]
  norm_num

/-- Witness for the amended C6 on four zero-size interactions. -/
theorem C6_zero_mean_gives_100_witness :
    3 ≤ sampleZeroList4.length ∧ size_mean sampleZeroList4 = 0 ∧
      samplePD.consistency_score sampleZeroList4 = 100 :=
  ⟨by decide, by norm_num [size_mean, sampleZeroList4, tiAmount],
   C6_zero_mean_gives_100 samplePD sampleZeroList4 (by decide)
     (by norm_num [size_mean, sampleZeroList4, tiAmount])⟩

/-- C8: consistency_score returns 0 on fewer than 3 interactions; with at
least 3 interactions and positive mean it returns (1 - min(CV, 1)) * 100
where CV is the population standard deviation over the mean; and on any list
of at least 3 equal positive purchase sizes it returns 100. -/
theorem C8_consistency_score (pd : PatternDetector) (l : List TokenInteraction) :
    (l.length < 3 → pd.consistency_score l = 0) ∧
    (3 ≤ l.length → 0 < size_mean l →
      pd.consistency_score l =
        (1 - min (Real.sqrt (size_variance l) / size_mean l) 1) * 100) ∧
    (∀ a : ℚ, 0 < a → 3 ≤ l.length → (∀ i ∈ l, i.sol_amount = a) →
      pd.consistency_score l = 100) := by
  refine ⟨fun h => by simp [PatternDetector.consistency_score, h],
    fun h hm => ?_, fun a ha h3 hall => ?_⟩
  · unfold PatternDetector.consistency_score
    rw [if_neg (by omega)]
    simp only [gt_iff_lt, hm, if_true, if_pos hm]
  · have hl : l ≠ [] := by
      intro hnil
      rw [hnil] at h3
      simp at h3
    have hmean := size_mean_const l a hall hl
    have hvar := size_variance_const l a hall hl
    unfold PatternDetector.consistency_score
    rw [if_neg (by omega)]
    have hapos : (0 : ℝ) < (a : ℝ) := by exact_mod_cast ha
    simp only [hmean, hvar, Real.sqrt_zero, zero_div, gt_iff_lt, hapos, if_true, if_pos hapos]
    norm_num

/-- Witness for C8 on three interactions of 10 SOL each. -/
theorem C8_consistency_score_witness :
    0 < (10 : ℚ) ∧ 3 ≤ sampleTenList.length ∧
      samplePD.consistency_score sampleTenList = 100 :=
  ⟨by norm_num, by decide,
   (C8_consistency_score samplePD sampleTenList).2.2 10 (by norm_num) (by decide)
     (by intro i hi; fin_cases hi <;> rfl)⟩

/-- Characterization of the inner scan: it appends some fresh addresses to
the cluster, pushes exactly those addresses onto the assigned list, and every
added address was unassigned and is a key of the scanned entries. -/
theorem clusterInner_spec (c : WalletClusterer) (stats1 : WalletStats) (addr1 : String)
    (entries : List (String × WalletStats)) :
    ∀ (cluster assigned : List String),
      ∃ new : List String,
        (clusterInner c stats1 addr1 entries cluster assigned).1 = cluster ++ new ∧
        (clusterInner c stats1 addr1 entries cluster assigned).2 = new.reverse ++ assigned ∧
        new.Nodup ∧
        ∀ a ∈ new, a ∉ assigned ∧ a ∈ entries.map Prod.fst := by
  induction entries with
  | nil =>
    intro cluster assigned
    exact ⟨[], by simp [clusterInner], by simp [clusterInner], List.nodup_nil, by simp⟩
  | cons hd tl ih =>
    intro cluster assigned
    obtain ⟨addr2, stats2⟩ := hd
    by_cases hmem : addr2 ∈ assigned ∨ addr1 = addr2
    · have estep : clusterInner c stats1 addr1 ((addr2, stats2) :: tl) cluster assigned =
          clusterInner c stats1 addr1 tl cluster assigned := by
        simp only [clusterInner]
        rw [if_pos hmem]
      obtain ⟨new, e1, e2, e3, e4⟩ := ih cluster assigned
      refine ⟨new, by rw [estep]; exact e1, by rw [estep]; exact e2, e3, ?_⟩
      intro a ha
      exact ⟨(e4 a ha).1, by simpa using Or.inr (e4 a ha).2⟩
    · by_cases hsim : c.similarity stats1 stats2 ≥ c.similarity_threshold
      · have estep : clusterInner c stats1 addr1 ((addr2, stats2) :: tl) cluster assigned =
            clusterInner c stats1 addr1 tl (cluster ++ [addr2]) (addr2 :: assigned) := by
          simp only [clusterInner]
          rw [if_neg hmem, if_pos hsim]
        obtain ⟨new, e1, e2, e3, e4⟩ := ih (cluster ++ [addr2]) (addr2 :: assigned)
        have haddr2 : addr2 ∉ new := fun hc => (e4 addr2 hc).1 (List.mem_cons_self _ _)
        push_neg at hmem
        refine ⟨addr2 :: new, ?_, ?_, List.nodup_cons.mpr ⟨haddr2, e3⟩, ?_⟩
        · rw [estep, e1]
          simp
        · rw [estep, e2]
          simp
        · intro a ha
          rcases List.mem_cons.mp ha with rfl | ha'
          · exact ⟨hmem.1, by simp⟩
          · refine ⟨fun hc => (e4 a ha').1 (List.mem_cons_of_mem _ hc), ?_⟩
            simpa using Or.inr (e4 a ha').2
      · have estep : clusterInner c stats1 addr1 ((addr2, stats2) :: tl) cluster assigned =
            clusterInner c stats1 addr1 tl cluster assigned := by
          simp only [clusterInner]
          rw [if_neg hmem, if_neg hsim]
        obtain ⟨new, e1, e2, e3, e4⟩ := ih cluster assigned
        refine ⟨new, by rw [estep]; exact e1, by rw [estep]; exact e2, e3, ?_⟩
        intro a ha
        exact ⟨(e4 a ha).1, by simpa using Or.inr (e4 a ha).2⟩

/-- Unfolding equation of the outer loop for an already-assigned seed. -/
theorem clusterOuter_cons_mem (c : WalletClusterer) (sm : List (String × WalletStats))
    (addr1 : String) (stats1 : WalletStats) (rest : List (String × WalletStats))
    (assigned : List String) (h : addr1 ∈ assigned) :
    clusterOuter c sm ((addr1, stats1) :: rest) assigned = clusterOuter c sm rest assigned := by
  simp only [clusterOuter]
  rw [if_pos h]

/-- Unfolding equation of the outer loop for a fresh seed. -/
theorem clusterOuter_cons_notmem (c : WalletClusterer) (sm : List (String × WalletStats))
    (addr1 : String) (stats1 : WalletStats) (rest : List (String × WalletStats))
    (assigned : List String) (h : addr1 ∉ assigned) :
    clusterOuter c sm ((addr1, stats1) :: rest) assigned =
      ((if (clusterInner c stats1 addr1 sm [addr1] (addr1 :: assigned)).1.isEmpty then
          (clusterOuter c sm rest (clusterInner c stats1 addr1 sm [addr1] (addr1 :: assigned)).2).1
        else
          (clusterInner c stats1 addr1 sm [addr1] (addr1 :: assigned)).1 ::
            (clusterOuter c sm rest (clusterInner c stats1 addr1 sm [addr1] (addr1 :: assigned)).2).1),
       (clusterOuter c sm rest (clusterInner c stats1 addr1 sm [addr1] (addr1 :: assigned)).2).2) := by
  simp only [clusterOuter]
  rw [if_neg h]

/-- Invariant of the outer loop: the concatenation of the produced clusters
is a duplicate-free list of previously unassigned wallet addresses drawn from
the map, it covers every key of the remaining entries that was not already
assigned, and every produced cluster is non-empty. -/
theorem clusterOuter_spec (c : WalletClusterer) (stats_map : List (String × WalletStats))
    (rest : List (String × WalletStats)) :
    ∀ (assigned : List String),
      ∃ new : List String,
        (clusterOuter c stats_map rest assigned).1.flatten = new ∧
        new.Nodup ∧
        (∀ a ∈ new, a ∉ assigned) ∧
        (∀ a ∈ new, a ∈ stats_map.map Prod.fst ∨ a ∈ rest.map Prod.fst) ∧
        (∀ a ∈ rest.map Prod.fst, a ∈ new ∨ a ∈ assigned) ∧
        (∀ cl ∈ (clusterOuter c stats_map rest assigned).1, cl ≠ []) := by
  induction rest with
  | nil =>
    intro assigned
    exact ⟨[], by simp [clusterOuter], List.nodup_nil, by simp, by simp, by simp,
      by simp [clusterOuter]⟩
  | cons hd tl ih =>
    intro assigned
    obtain ⟨addr1, stats1⟩ := hd
    by_cases hmem : addr1 ∈ assigned
    · rw [clusterOuter_cons_mem c stats_map addr1 stats1 tl assigned hmem]
      obtain ⟨new, e1, e2, e3, e4, e5, e6⟩ := ih assigned
      refine ⟨new, e1, e2, e3, ?_, ?_, e6⟩
      · intro a ha
        rcases e4 a ha with h' | h'
        · exact Or.inl h'
        · exact Or.inr (by simpa using Or.inr h')
      · intro a ha
        simp only [List.map_cons, List.mem_cons] at ha
        rcases ha with rfl | ha'
        · exact Or.inr hmem
        · exact e5 a ha'
    · rw [clusterOuter_cons_notmem c stats_map addr1 stats1 tl assigned hmem]
      obtain ⟨n1, g1, g2, g3, g4⟩ :=
        clusterInner_spec c stats1 addr1 stats_map [addr1] (addr1 :: assigned)
      rw [g1, g2]
      obtain ⟨n2, f1, f2, f3, f4, f5, f6⟩ := ih (n1.reverse ++ (addr1 :: assigned))
      have haddr1n1 : addr1 ∉ n1 := fun hc => (g4 addr1 hc).1 (List.mem_cons_self _ _)
      have haddr1n2 : addr1 ∉ n2 := fun hc =>
        f3 addr1 hc (List.mem_append_right _ (List.mem_cons_self _ _))
      have hdisj : n1.Disjoint n2 := fun a ha1 ha2 =>
        f3 a ha2 (List.mem_append_left _ (List.mem_reverse.mpr ha1))
      refine ⟨addr1 :: (n1 ++ n2), ?_, ?_, ?_, ?_, ?_, ?_⟩
      · simp only [List.singleton_append, List.isEmpty_cons, Bool.false_eq_true, if_false,
          List.flatten_cons, f1]
        simp
      · refine List.nodup_cons.mpr ⟨?_, List.nodup_append.mpr ⟨g3, f2, hdisj⟩⟩
        simp only [List.mem_append]
        rintro (hc | hc)
        · exact haddr1n1 hc
        · exact haddr1n2 hc
      · intro a ha
        rcases List.mem_cons.mp ha with rfl | ha'
        · exact hmem
        rcases List.mem_append.mp ha' with hc | hc
        · exact fun hc2 => (g4 a hc).1 (List.mem_cons_of_mem _ hc2)
        · exact fun hc2 =>
            f3 a hc (List.mem_append_right _ (List.mem_cons_of_mem _ hc2))
      · intro a ha
        rcases List.mem_cons.mp ha with rfl | ha'
        · exact Or.inr (by simp)
        rcases List.mem_append.mp ha' with hc | hc
        · exact Or.inl (g4 a hc).2
        · rcases f4 a hc with h' | h'
          · exact Or.inl h'
          · exact Or.inr (by simpa using Or.inr h')
      · intro a ha
        simp only [List.map_cons, List.mem_cons] at ha
        rcases ha with rfl | ha'
        · exact Or.inl (List.mem_cons_self _ _)
        rcases f5 a ha' with h' | h'
        · exact Or.inl (List.mem_cons_of_mem _ (List.mem_append_right _ h'))
        rcases List.mem_append.mp h' with hc | hc
        · exact Or.inl (List.mem_cons_of_mem _ (List.mem_append_left _ (List.mem_reverse.mp hc)))
        rcases List.mem_cons.mp hc with rfl | hc'
        · exact Or.inl (List.mem_cons_self _ _)
        · exact Or.inr hc'
      · simp only [List.singleton_append, List.isEmpty_cons, Bool.false_eq_true, if_false]
        intro cl hcl
        rcases List.mem_cons.mp hcl with rfl | hcl'
        · exact List.cons_ne_nil _ _
        · exact f6 cl hcl'

/-- C9: on a map with distinct wallet addresses, the clusters returned by
cluster_wallets partition the key set: their concatenation is a permutation
of the (duplicate-free) key list, so every wallet appears in exactly one
cluster and exactly once in it, and no cluster is empty. -/
theorem C9_cluster_wallets_partition (c : WalletClusterer)
    (m : List (String × WalletStats)) (h : (m.map Prod.fst).Nodup) :
    (c.cluster_wallets m).flatten.Perm (m.map Prod.fst) ∧
    ∀ cl ∈ c.cluster_wallets m, cl ≠ [] := by
  obtain ⟨new, e1, e2, e3, e4, e5, e6⟩ := clusterOuter_spec c m m []
  unfold WalletClusterer.cluster_wallets
  constructor
  · rw [e1]
    refine (List.perm_ext_iff_of_nodup e2 h).mpr ?_
    intro a
    constructor
    · intro ha
      rcases e4 a ha with h' | h' <;> exact h'
    · intro ha
      rcases e5 a ha with h' | h'
      · exact h'
      · simp at h'
  · exact e6

/-- Witness for C9 on a concrete two-wallet map. -/
theorem C9_cluster_wallets_partition_witness :
    (sampleMap.map Prod.fst).Nodup ∧
    ((sampleClusterer.cluster_wallets sampleMap).flatten.Perm (sampleMap.map Prod.fst) ∧
      ∀ cl ∈ sampleClusterer.cluster_wallets sampleMap, cl ≠ []) :=
  ⟨by decide, C9_cluster_wallets_partition sampleClusterer sampleMap (by decide)⟩
